import Mathlib

/-
  Verification development for the document rendering engine of the
  Assignment-Maker repository (src/pdf_generator.py).

  The engine's story elements, styles and the line-oriented markdown
  parser are embedded shallowly: strings are lists of characters
  (Python per-character semantics), the story is a list of structured
  elements, and every regular-expression check of the source is
  modelled by an explicit scanner that reproduces the (greedy,
  left-to-right, first-match) behaviour of the Python `re` calls on
  the inputs the parser feeds them.
-/

namespace PdfGen

/-- Names of the paragraph styles built by `get_pdf_styles` in the source.
    The registry itself (fonts, sizes, colors) is a style concern; only the
    identity of the style attached to each emitted paragraph matters here.
    The constructors are distinct, as the underlying `ParagraphStyle`
    objects of the source are distinct. -/
inductive StyleName where
  | titleS
  | subtitleS
  | heading1S
  | heading2S
  | heading3S
  | bodyS
  | bulletS
  | numberedS
  | codeS
  | referenceS
deriving DecidableEq

/-- One element of the reportlab `story` list assembled by the source.
    `spacerE n` is a `Spacer(1, (n/100) * inch)`; `para` is a styled
    `Paragraph`; `coverTable` is the cover page's label/value `Table`;
    `codeHeader`/`codeTable`/`codeBorder` are the three tables built by
    `create_code_block` (the header label and the escaped code rows are
    kept, the purely visual table styling is not); `pageBreak` is
    `PageBreak()`. -/
inductive Elem where
  | spacerE (hundredthsInch : Nat)
  | para (style : StyleName) (text : List Char)
  | coverTable (rows : List (List Char × List Char))
  | codeHeader (label : List Char)
  | codeTable (rows : List (List Char))
  | codeBorder
  | pageBreak
deriving DecidableEq

/-- The mutable locals of `parse_content_to_pdf`:
    `in_code_block`, `code_lines`, `code_language`, `in_references`. -/
structure ParseState where
  in_code_block : Bool
  code_lines : List (List Char)
  code_language : List Char
  in_references : Bool
deriving DecidableEq

/-- Python `str.strip()`: remove leading and trailing whitespace. -/
def trim (s : List Char) : List Char :=
  ((s.dropWhile Char.isWhitespace).reverse.dropWhile Char.isWhitespace).reverse

/-- The three-backtick fence marker (the string constant of the source). -/
def fence3 : List Char := ['\x60', '\x60', '\x60']

/-- Python `str.upper()` (ASCII case mapping). -/
def upperL (l : List Char) : List Char := l.map Char.toUpper

/-- The characters of the entity `&amp;` (with a leading ampersand). -/
def escAmp : List Char := ['&', 'a', 'm', 'p', ';']

/-- The characters of the entity `&lt;`. -/
def escLt : List Char := ['&', 'l', 't', ';']

/-- The characters of the entity `&gt;`. -/
def escGt : List Char := ['&', 'g', 't', ';']

/-- Python `str.replace(old, new)` for a single-character `old`:
    every occurrence of `c` is replaced by `r`. -/
def replaceChar (c : Char) (r : List Char) : List Char → List Char
  | [] => []
  | x :: xs => if x = c then r ++ replaceChar c r xs else x :: replaceChar c r xs

/-- The escaping chain of the source, applied to one code line:
    `line.replace('&', '&amp;').replace('<', '&lt;').replace('>', '&gt;')`
    (ampersand first, then angle brackets). -/
def escapeLine (l : List Char) : List Char :=
  replaceChar '>' escGt (replaceChar '<' escLt (replaceChar '&' escAmp l))

/-- Per-character description of `escapeLine` (specification helper). -/
def escChar (c : Char) : List Char :=
  if c = '&' then escAmp else if c = '<' then escLt else if c = '>' then escGt else [c]

/-- The entity decoding performed by the downstream rich-text renderer:
    a left-to-right scan replacing `&amp;`, `&lt;`, `&gt;` by the literal
    character; everything else is passed through.  Fueled for structural
    recursion; `s.length` steps always suffice. -/
def decodeEntitiesAux : Nat → List Char → List Char
  | 0, s => s
  | _ + 1, [] => []
  | fuel + 1, c :: rest =>
    if c = '&' then
      match rest with
      | 'a' :: 'm' :: 'p' :: ';' :: r2 => '&' :: decodeEntitiesAux fuel r2
      | 'l' :: 't' :: ';' :: r2 => '<' :: decodeEntitiesAux fuel r2
      | 'g' :: 't' :: ';' :: r2 => '>' :: decodeEntitiesAux fuel r2
      | _ => c :: decodeEntitiesAux fuel rest
    else c :: decodeEntitiesAux fuel rest

/-- Entity decoding of a whole string. -/
def decodeEntities (s : List Char) : List Char := decodeEntitiesAux s.length s

/-- The placeholder token `___CODE_{i}___` of `process_inline_markdown`. -/
def placeholderStr (i : Nat) : List Char :=
  ("___CODE_").data ++ (Nat.repr i).data ++ ("___").data

/-- Scanner for `re.sub(r'\x60([^\x60]+)\x60', save_code, text)`: each
    backtick-delimited non-empty span is replaced by `___CODE_i___` and its
    content is appended to the accumulator, scanning left to right.  The
    fuel argument only bounds the recursion; `text.length` steps always
    suffice because every step consumes at least one character. -/
def scanCodeAux : Nat → List (List Char) → List Char → List Char × List (List Char)
  | 0, acc, s => (s, acc)
  | _ + 1, acc, [] => ([], acc)
  | fuel + 1, acc, c :: rest =>
    if c = '\x60' then
      let run := rest.takeWhile (fun d => !(d == '\x60'))
      let after := rest.drop run.length
      if 1 ≤ run.length ∧ 1 ≤ after.length then
        let r := scanCodeAux fuel (acc ++ [run]) (after.drop 1)
        (placeholderStr acc.length ++ r.1, r.2)
      else
        let r := scanCodeAux fuel acc rest
        ('\x60' :: r.1, r.2)
    else
      let r := scanCodeAux fuel acc rest
      (c :: r.1, r.2)

/-- Scanner for the bold rule
    `re.sub(r'\*\*([^\*]+)\*\*', r'<b>\1</b>', text)`:
    a double asterisk, a non-empty run without asterisks, a double
    asterisk; on failure the scan advances one character (as `re.sub`
    does). -/
def scanBoldAux : Nat → List Char → List Char
  | 0, s => s
  | _ + 1, [] => []
  | fuel + 1, c :: rest =>
    if c = '*' ∧ rest.take 1 = ['*'] then
      let rr := rest.drop 1
      let run := rr.takeWhile (fun d => !(d == '*'))
      let after := rr.drop run.length
      if 1 ≤ run.length ∧ after.take 2 = ['*', '*'] then
        ("<b>").data ++ run ++ ("</b>").data ++ scanBoldAux fuel (after.drop 2)
      else '*' :: scanBoldAux fuel rest
    else c :: scanBoldAux fuel rest

/-- Scanner for the italic rule
    `re.sub(r'(?<!\*)\*([^\*]+)\*(?!\*)', r'<i>\1</i>', text)`:
    the boolean argument tracks whether the previous character of the
    original text was an asterisk (the negative lookbehind); the negative
    lookahead requires the character after the closing asterisk not to
    be an asterisk. -/
def scanItalicAux : Nat → Bool → List Char → List Char
  | 0, _, s => s
  | _ + 1, _, [] => []
  | fuel + 1, prevStar, c :: rest =>
    if c = '*' then
      if prevStar then '*' :: scanItalicAux fuel true rest
      else
        let run := rest.takeWhile (fun d => !(d == '*'))
        let after := rest.drop run.length
        if 1 ≤ run.length ∧ after.take 1 = ['*'] ∧ ¬((after.drop 1).take 1 = ['*']) then
          ("<i>").data ++ run ++ ("</i>").data ++ scanItalicAux fuel true (after.drop 1)
        else '*' :: scanItalicAux fuel true rest
    else c :: scanItalicAux fuel false rest

/-- Python `str.replace(pat, rep)`: all occurrences, left to right,
    non-overlapping.  Fueled; `s.length` steps always suffice. -/
def replaceSubAux (pat rep : List Char) : Nat → List Char → List Char
  | 0, s => s
  | _ + 1, [] => []
  | fuel + 1, c :: rest =>
    if 1 ≤ pat.length ∧ (c :: rest).take pat.length = pat then
      rep ++ replaceSubAux pat rep fuel ((c :: rest).drop pat.length)
    else
      c :: replaceSubAux pat rep fuel rest

/-- Python `text.replace(pat, rep)`. -/
def replaceSub (pat rep s : List Char) : List Char := replaceSubAux pat rep s.length s

/-- The monospace span that `process_inline_markdown` substitutes for a
    restored code snippet (the snippet is HTML-escaped first). -/
def styledSpan (code : List Char) : List Char :=
  ("<font name=\"Courier\" color=\"#e83e8c\" backColor=\"#f8f9fa\"> ").data
    ++ escapeLine code ++ (" </font>").data

/-- The restore loop of `process_inline_markdown`:
    `for i, code in enumerate(code_snippets): text = text.replace(f"___CODE_{i}___", styled)`. -/
def restoreCode (snippets : List (List Char)) (text : List Char) : List Char :=
  (snippets.enum).foldl (fun t pr => replaceSub (placeholderStr pr.1) (styledSpan pr.2) t) text

/-- `process_inline_markdown` of the source: protect backtick code spans
    behind placeholders, apply bold, apply italic, then restore the
    placeholders as escaped monospace spans. -/
def process_inline_markdown (text : List Char) : List Char :=
  let p := scanCodeAux text.length [] text
  let t2 := scanBoldAux p.1.length p.1
  let t3 := scanItalicAux t2.length false t2
  restoreCode p.2 t3

/-- The check `re.match(r'^#+\s*(references?|bibliography)$', stripped, re.IGNORECASE)`:
    one or more hashes, optional whitespace, then exactly one of the three
    words, case-insensitively, up to the end of the (stripped) line. -/
def isRefHeading (s : List Char) : Bool :=
  match s with
  | [] => false
  | c :: rest =>
    if c = '#' then
      let word := ((rest.dropWhile (fun d => d == '#')).dropWhile Char.isWhitespace).map Char.toLower
      (word == ("references").data) || (word == ("reference").data) || (word == ("bibliography").data)
    else false

/-- The heading pattern `re.match(r'^(#{1,4})\s+(.+)$', stripped)` on a
    stripped line: one to four hashes, at least one whitespace character,
    then a non-empty remainder.  (Since `stripped` never ends in
    whitespace, the greedy `\s+` leaves the remainder exactly as the text
    after the whitespace run.)  Returns the hash count and the text. -/
def headingMatch (s : List Char) : Option (Nat × List Char) :=
  let h := (s.takeWhile (fun c => c == '#')).length
  if 1 ≤ h ∧ h ≤ 4 then
    let rest := s.drop h
    let w := (rest.takeWhile Char.isWhitespace).length
    if 1 ≤ w ∧ w < rest.length then some (h, rest.drop w) else none
  else none

/-- Python `text.replace('**', '')`: delete double-asterisk pairs, left to
    right, non-overlapping. -/
def replaceStarStar : List Char → List Char
  | '*' :: '*' :: rest => replaceStarStar rest
  | c :: rest => c :: replaceStarStar rest
  | [] => []

/-- The heading-text cleanup `text.replace('**', '').replace('*', '')`
    (the second replace of a one-character pattern removes every
    remaining asterisk). -/
def stripMarkup (s : List Char) : List Char :=
  (replaceStarStar s).filter (fun c => !(c == '*'))

/-- The bullet pattern `re.match(r'^[\-\*\+]\s+', stripped)`. -/
def isBullet (s : List Char) : Bool :=
  match s with
  | c :: d :: _ => if c = '-' ∨ c = '*' ∨ c = '+' then d.isWhitespace else false
  | _ => false

/-- `re.sub(r'^[\-\*\+]\s+', '• ', stripped)` when the bullet pattern
    matches: the marker and the greedy whitespace run are replaced by a
    bullet glyph and one space. -/
def bulletReplace (s : List Char) : List Char :=
  '•' :: ' ' :: ((s.drop 1).dropWhile Char.isWhitespace)

/-- The numbered-list pattern `re.match(r'^\d+\.\s+', stripped)`:
    one or more digits, a dot, at least one whitespace character. -/
def isNumbered (s : List Char) : Bool :=
  match s with
  | [] => false
  | c :: _ =>
    if c.isDigit then
      match s.dropWhile Char.isDigit with
      | '.' :: d :: _ => d.isWhitespace
      | _ => false
    else false

/-- `create_code_block` of the source: a header bar labelled with the
    upper-cased language (or `CODE`), one table of escaped code rows
    (blank lines become a single space), a bottom border, a spacer. -/
def create_code_block (code_lines : List (List Char)) (language : List Char) : List Elem :=
  [Elem.codeHeader (' ' :: (if language = [] then ("CODE").data else upperL language)),
   Elem.codeTable (code_lines.map (fun l => escapeLine (if trim l = [] then [' '] else l))),
   Elem.codeBorder,
   Elem.spacerE 12]

/-- The body of the `for line in lines` loop of `parse_content_to_pdf`:
    given the current state and the raw line, produce the new state and
    the story elements appended for this line.  The branch order is the
    source's: fence open/close, in-code-block append, blank line,
    references heading, heading, bullet, numbered, paragraph. -/
def processLine (st : ParseState) (line : List Char) : ParseState × List Elem :=
  let stripped := trim line
  if stripped.take 3 = fence3 then
    if st.in_code_block = false then
      ({ st with in_code_block := true, code_language := trim (stripped.drop 3), code_lines := [] }, [])
    else
      ({ st with in_code_block := false, code_lines := [] },
       create_code_block st.code_lines st.code_language)
  else if st.in_code_block then
    ({ st with code_lines := st.code_lines ++ [line] }, [])
  else if stripped = [] then
    (st, [Elem.spacerE 8])
  else if isRefHeading stripped then
    ({ st with in_references := true }, [Elem.para StyleName.heading1S (("References").data)])
  else
    match headingMatch stripped with
    | some (level, text) =>
        (st,
         [Elem.para
            (if level = 1 then StyleName.heading1S
             else if level = 2 then StyleName.heading1S
             else if level = 3 then StyleName.heading2S
             else StyleName.heading3S)
            (stripMarkup text)])
    | none =>
        if isBullet stripped then
          (st, [Elem.para StyleName.bulletS (process_inline_markdown (bulletReplace stripped))])
        else if isNumbered stripped then
          (st,
           [Elem.para (if st.in_references then StyleName.referenceS else StyleName.numberedS)
              (process_inline_markdown stripped)])
        else
          (st, [Elem.para StyleName.bodyS (process_inline_markdown stripped)])

/-- The whole loop of `parse_content_to_pdf`, from a given state. -/
def parseLinesFrom (st : ParseState) : List (List Char) → ParseState × List Elem
  | [] => (st, [])
  | l :: ls =>
    let r := processLine st l
    let rest := parseLinesFrom r.1 ls
    (rest.1, r.2 ++ rest.2)

/-- `parse_content_to_pdf`: the source first splits the content string
    into lines (`assignment_content.splitlines()`); the resulting line
    list is the input here.  All four state variables start false/empty,
    and the story is whatever the loop emitted — note that the source
    returns `story` directly, with no flush of a still-open code buffer. -/
def parse_content_to_pdf (lines : List (List Char)) : List Elem :=
  (parseLinesFrom ⟨false, [], [], false⟩ lines).2

/-- Python `student_info.get(key, dflt)`. -/
def dget (info : String → Option String) (key dflt : String) : String :=
  (info key).getD dflt

/-- `create_cover_page` of the source.  The submission date is computed
    by `datetime.now().strftime(...)` at render time; it is passed
    explicitly here so the builder is a pure function. -/
def create_cover_page (student_info : String → Option String) (submission_date : String) : List Elem :=
  [Elem.spacerE 40,
   Elem.para StyleName.titleS (upperL ((dget student_info ("university") ("UNIVERSITY")).data)),
   Elem.spacerE 10,
   Elem.para StyleName.subtitleS (("ACADEMIC ASSIGNMENT").data),
   Elem.para StyleName.subtitleS ((dget student_info ("subject") ("")).data),
   Elem.spacerE 15,
   Elem.coverTable
     [((("Student Name:").data), ((dget student_info ("name") ("")).data)),
      ((("Student ID:").data), ((dget student_info ("id") ("")).data)),
      ((("Program:").data), ((dget student_info ("program") ("")).data)),
      ((("Instructor:").data), ((dget student_info ("instructor") ("N/A")).data)),
      ((("Semester / Term:").data), ((dget student_info ("semester") ("N/A")).data)),
      ((("Submission Date:").data), submission_date.data)],
   Elem.spacerE 30,
   Elem.para StyleName.referenceS (List.replicate 80 '_'),
   Elem.spacerE 20,
   Elem.pageBreak]

/-- `create_pdf` of the source: the story is the cover page followed by
    the parsed content.  `include_refs` and `logo_data` mirror the source
    signature; the story assembly never consults them (the logo is only
    drawn by the per-page decoration callback, which is part of the
    layout backend, not of the story). -/
def create_pdf (student_info : String → Option String) (assignment_content : List (List Char))
    (include_refs : Bool) (logo_data : Option (List Nat)) (submission_date : String) : List Elem :=
  create_cover_page student_info submission_date ++ parse_content_to_pdf assignment_content

/-- The block categories of the classifier, in the spec's vocabulary. -/
inductive LineCat where
  | fenceC
  | blankC
  | headingC
  | bulletC
  | numberedC
  | paragraphC
deriving DecidableEq

/-- The classifier's fixed check order on a stripped line: code fence,
    blank, heading (the references form or the generic form), bullet,
    numbered, paragraph — first match wins. -/
def classifyLine (s : List Char) : LineCat :=
  if s.take 3 = fence3 then LineCat.fenceC
  else if s = [] then LineCat.blankC
  else if isRefHeading s = true ∨ (headingMatch s).isSome then LineCat.headingC
  else if isBullet s = true then LineCat.bulletC
  else if isNumbered s = true then LineCat.numberedC
  else LineCat.paragraphC

/-- Substring occurrence test (used to state that a token does or does
    not appear in a produced string). -/
def containsSub (pat : List Char) : List Char → Bool
  | [] => pat == []
  | c :: rest => ((c :: rest).take pat.length == pat) || containsSub pat rest

end PdfGen

namespace PdfGen

/-! ### Shape lemmas about the line patterns -/

theorem take3_fence_head {s : List Char} (h : s.take 3 = fence3) : ∃ t, s = '\x60' :: t := by
  cases s with
  | nil => exact absurd h (by decide)
  | cons c t =>
    have h' : c :: t.take 2 = fence3 := h
    simp only [fence3] at h'
    injection h' with h1 h2
    exact ⟨t, by rw [h1]⟩

theorem isRefHeading_head {s : List Char} (h : isRefHeading s = true) : ∃ t, s = '#' :: t := by
  cases s with
  | nil => exact absurd h (by decide)
  | cons c t =>
    by_cases hc : c = '#'
    · exact ⟨t, by rw [hc]⟩
    · simp only [isRefHeading, if_neg hc] at h
      exact Bool.noConfusion h

theorem isRefHeading_false_of_head {c : Char} {t : List Char} (hc : ¬ c = '#') :
    isRefHeading (c :: t) = false := by
  simp only [isRefHeading, if_neg hc]

theorem headingMatch_none_of_head {c : Char} {t : List Char} (hc : ¬ c = '#') :
    headingMatch (c :: t) = none := by
  have hw : (c :: t).takeWhile (fun d => d == '#') = [] := by
    simp [List.takeWhile_cons, hc]
  simp [headingMatch, hw]

theorem headingMatch_head {s : List Char} {l : Nat} {t : List Char}
    (h : headingMatch s = some (l, t)) : (∃ u, s = '#' :: u) ∧ 1 ≤ l ∧ l ≤ 4 := by
  simp only [headingMatch] at h
  split at h
  · rename_i hb
    split at h
    · rename_i hw
      have hl : l = (s.takeWhile (fun c => c == '#')).length := by
        have := (Option.some.injEq _ _).mp h
        exact (Prod.mk.injEq _ _ _ _).mp this.symm |>.1
      constructor
      · have hpos : 1 ≤ (s.takeWhile (fun c => c == '#')).length := hb.1
        cases s with
        | nil => simp at hpos
        | cons c u =>
          by_cases hc : c = '#'
          · exact ⟨u, by rw [hc]⟩
          · rw [List.takeWhile_cons] at hpos
            simp [hc] at hpos
      · rw [hl]; exact ⟨hb.1, hb.2⟩
    · cases h
  · cases h

theorem isBullet_head {s : List Char} (h : isBullet s = true) :
    ∃ c d t, s = c :: d :: t ∧ (c = '-' ∨ c = '*' ∨ c = '+') := by
  cases s with
  | nil => exact absurd h (by decide)
  | cons c rest =>
    cases rest with
    | nil => exact Bool.noConfusion h
    | cons d t =>
      by_cases hc : c = '-' ∨ c = '*' ∨ c = '+'
      · exact ⟨c, d, t, rfl, hc⟩
      · simp only [isBullet, if_neg hc] at h
        exact Bool.noConfusion h

theorem isBullet_false_of_head {c : Char} {t : List Char} (hc : ¬(c = '-' ∨ c = '*' ∨ c = '+')) :
    isBullet (c :: t) = false := by
  cases t with
  | nil => rfl
  | cons d u => simp only [isBullet, if_neg hc]

theorem isNumbered_head {s : List Char} (h : isNumbered s = true) :
    ∃ c t, s = c :: t ∧ c.isDigit = true := by
  cases s with
  | nil => exact absurd h (by decide)
  | cons c t =>
    by_cases hc : c.isDigit = true
    · exact ⟨c, t, rfl, hc⟩
    · rw [Bool.not_eq_true] at hc
      simp only [isNumbered, hc] at h
      simp at h

theorem digit_not_special {c : Char} (h : c.isDigit = true) :
    ¬ c = '\x60' ∧ ¬ c = '#' ∧ ¬(c = '-' ∨ c = '*' ∨ c = '+') := by
  refine ⟨?_, ?_, ?_⟩
  · intro he; rw [he] at h; exact absurd h (by decide)
  · intro he; rw [he] at h; exact absurd h (by decide)
  · rintro (he | he | he) <;> (rw [he] at h; exact absurd h (by decide))

/-! ### Branch lemmas for `processLine` -/

theorem processLine_fence_open {st : ParseState} {line : List Char}
    (hc : st.in_code_block = false) (hf : (trim line).take 3 = fence3) :
    processLine st line =
      ({ st with
         in_code_block := true, code_language := trim ((trim line).drop 3),
         code_lines := [] }, []) := by
  simp [processLine, hf, hc]

theorem processLine_fence_close {st : ParseState} {line : List Char}
    (hc : st.in_code_block = true) (hf : (trim line).take 3 = fence3) :
    processLine st line =
      ({ st with in_code_block := false, code_lines := [] },
       create_code_block st.code_lines st.code_language) := by
  simp [processLine, hf, hc]

theorem processLine_append {st : ParseState} {line : List Char}
    (hc : st.in_code_block = true) (hf : ¬ (trim line).take 3 = fence3) :
    processLine st line = ({ st with code_lines := st.code_lines ++ [line] }, []) := by
  simp [processLine, hf, hc]

theorem processLine_blank {st : ParseState} {line : List Char}
    (hc : st.in_code_block = false) (hb : trim line = []) :
    processLine st line = (st, [Elem.spacerE 8]) := by
  simp [processLine, hb, hc]
  decide

theorem processLine_refHeading {st : ParseState} {line : List Char}
    (hc : st.in_code_block = false) (hr : isRefHeading (trim line) = true) :
    processLine st line =
      ({ st with in_references := true },
       [Elem.para StyleName.heading1S (("References").data)]) := by
  obtain ⟨t, ht⟩ := isRefHeading_head hr
  have hf : ¬ (trim line).take 3 = fence3 := by
    rw [ht]; intro h
    obtain ⟨u, hu⟩ := take3_fence_head h
    have : '#' = '\x60' := by
      have := congrArg (fun l => l.headD ' ') hu
      simpa using this
    exact absurd this (by decide)
  have hb : ¬ trim line = [] := by rw [ht]; simp
  simp [processLine, hf, hb, hc, hr]

theorem processLine_heading {st : ParseState} {line : List Char} {level : Nat} {text : List Char}
    (hc : st.in_code_block = false) (hr : isRefHeading (trim line) = false)
    (hm : headingMatch (trim line) = some (level, text)) :
    processLine st line =
      (st,
       [Elem.para
          (if level = 1 then StyleName.heading1S
           else if level = 2 then StyleName.heading1S
           else if level = 3 then StyleName.heading2S
           else StyleName.heading3S)
          (stripMarkup text)]) := by
  obtain ⟨⟨u, hu⟩, _, _⟩ := headingMatch_head hm
  have hf : ¬ (trim line).take 3 = fence3 := by
    rw [hu]; intro h
    obtain ⟨v, hv⟩ := take3_fence_head h
    have : '#' = '\x60' := by
      have := congrArg (fun l => l.headD ' ') hv
      simpa using this
    exact absurd this (by decide)
  have hb : ¬ trim line = [] := by rw [hu]; simp
  simp [processLine, hf, hb, hc, hr, hm]

theorem processLine_bullet {st : ParseState} {line : List Char}
    (hc : st.in_code_block = false) (hbl : isBullet (trim line) = true) :
    processLine st line =
      (st, [Elem.para StyleName.bulletS (process_inline_markdown (bulletReplace (trim line)))]) := by
  obtain ⟨c, d, t, hs, hcs⟩ := isBullet_head hbl
  have hcne : ¬ c = '#' := by
    rcases hcs with h | h | h <;> (rw [h]; decide)
  have hcfe : ¬ c = '\x60' := by
    rcases hcs with h | h | h <;> (rw [h]; decide)
  have hf : ¬ (trim line).take 3 = fence3 := by
    rw [hs]; intro h
    obtain ⟨v, hv⟩ := take3_fence_head h
    have : c = '\x60' := by
      have := congrArg (fun l => l.headD ' ') hv
      simpa using this
    exact absurd this hcfe
  have hb : ¬ trim line = [] := by rw [hs]; simp
  have hr : isRefHeading (trim line) = false := by rw [hs]; exact isRefHeading_false_of_head hcne
  have hm : headingMatch (trim line) = none := by rw [hs]; exact headingMatch_none_of_head hcne
  simp [processLine, hf, hb, hc, hr, hm, hbl]

theorem processLine_numbered {st : ParseState} {line : List Char}
    (hc : st.in_code_block = false) (hn : isNumbered (trim line) = true) :
    processLine st line =
      (st,
       [Elem.para (if st.in_references then StyleName.referenceS else StyleName.numberedS)
          (process_inline_markdown (trim line))]) := by
  obtain ⟨c, t, hs, hd⟩ := isNumbered_head hn
  obtain ⟨hcfe, hcne, hcbu⟩ := digit_not_special hd
  have hf : ¬ (trim line).take 3 = fence3 := by
    rw [hs]; intro h
    obtain ⟨v, hv⟩ := take3_fence_head h
    have : c = '\x60' := by
      have := congrArg (fun l => l.headD ' ') hv
      simpa using this
    exact absurd this hcfe
  have hb : ¬ trim line = [] := by rw [hs]; simp
  have hr : isRefHeading (trim line) = false := by rw [hs]; exact isRefHeading_false_of_head hcne
  have hm : headingMatch (trim line) = none := by rw [hs]; exact headingMatch_none_of_head hcne
  have hbl : isBullet (trim line) = false := by rw [hs]; exact isBullet_false_of_head hcbu
  simp [processLine, hf, hb, hc, hr, hm, hbl, hn]

theorem processLine_paragraph {st : ParseState} {line : List Char}
    (hc : st.in_code_block = false) (hf : ¬ (trim line).take 3 = fence3)
    (hb : ¬ trim line = []) (hr : isRefHeading (trim line) = false)
    (hm : headingMatch (trim line) = none) (hbl : isBullet (trim line) = false)
    (hn : isNumbered (trim line) = false) :
    processLine st line =
      (st, [Elem.para StyleName.bodyS (process_inline_markdown (trim line))]) := by
  simp [processLine, hf, hb, hc, hr, hm, hbl, hn]

/-! ### Monotonicity of the references latch -/

theorem processLine_refs_mono (st : ParseState) (line : List Char)
    (h : st.in_references = true) : (processLine st line).1.in_references = true := by
  by_cases hf : (trim line).take 3 = fence3
  · by_cases hc : st.in_code_block = false
    · rw [processLine_fence_open hc hf]; exact h
    · rw [Bool.not_eq_false] at hc
      rw [processLine_fence_close hc hf]; exact h
  · by_cases hc : st.in_code_block = false
    · by_cases hb : trim line = []
      · rw [processLine_blank hc hb]; exact h
      · by_cases hr : isRefHeading (trim line) = true
        · rw [processLine_refHeading hc hr]
        · rw [Bool.not_eq_true] at hr
          rcases hm : headingMatch (trim line) with _ | ⟨level, text⟩
          · by_cases hbl : isBullet (trim line) = true
            · rw [processLine_bullet hc hbl]; exact h
            · rw [Bool.not_eq_true] at hbl
              by_cases hn : isNumbered (trim line) = true
              · rw [processLine_numbered hc hn]; exact h
              · rw [Bool.not_eq_true] at hn
                rw [processLine_paragraph hc hf hb hr hm hbl hn]; exact h
          · rw [processLine_heading hc hr hm]; exact h
    · rw [Bool.not_eq_false] at hc
      rw [processLine_append hc hf]; exact h

theorem parseLinesFrom_refs_mono (lines : List (List Char)) :
    ∀ st : ParseState, st.in_references = true →
      (parseLinesFrom st lines).1.in_references = true := by
  induction lines with
  | nil => intro st h; exact h
  | cons l ls ih =>
    intro st h
    exact ih _ (processLine_refs_mono st l h)

theorem processLine_refs_unchanged {st : ParseState} {line : List Char}
    (hc : st.in_code_block = false) (hr : isRefHeading (trim line) = false) :
    (processLine st line).1.in_references = st.in_references := by
  by_cases hf : (trim line).take 3 = fence3
  · rw [processLine_fence_open hc hf]
  · by_cases hb : trim line = []
    · rw [processLine_blank hc hb]
    · rcases hm : headingMatch (trim line) with _ | ⟨level, text⟩
      · by_cases hbl : isBullet (trim line) = true
        · rw [processLine_bullet hc hbl]
        · rw [Bool.not_eq_true] at hbl
          by_cases hn : isNumbered (trim line) = true
          · rw [processLine_numbered hc hn]
          · rw [Bool.not_eq_true] at hn
            rw [processLine_paragraph hc hf hb hr hm hbl hn]
      · rw [processLine_heading hc hr hm]

/-! ### Claim theorems -/

/-- C1: the claim states that an unterminated fence is treated as an
    implicit close, with the remaining lines emitted as one final
    CodeBlock and no line lost.  The code does the opposite: after the
    loop, `parse_content_to_pdf` returns `story` without flushing the
    still-open buffer, so on the input whose lines are
    `\x60\x60\x60python` and `hello`, the line `hello` sits in the buffer
    of the final state but the emitted story is empty — the line is
    silently dropped, never emitted as a CodeBlock. -/
theorem fence_unterminated_drops_lines :
    parseLinesFrom ⟨false, [], [], false⟩ [("\x60\x60\x60python").data, ("hello").data] =
      (⟨true, [("hello").data], ("python").data, false⟩, []) := by
  decide

/-- C2 counterexample: the claim states that only a line whose trimmed
    form is exactly a fence marker closes an open code block, and that a
    line that starts with the marker but carries trailing text does not.
    On the input `\x60\x60\x60`, `a`, `\x60\x60\x60more`, the third line carries
    trailing text, yet the block closes there: one CodeBlock containing
    only `a` is emitted and the parser leaves the code-block state. -/
theorem fence_trailing_text_closes_cex :
    parseLinesFrom ⟨false, [], [], false⟩
        [("\x60\x60\x60").data, ("a").data, ("\x60\x60\x60more").data] =
      (⟨false, [], [], false⟩,
       [Elem.codeHeader ((" CODE").data), Elem.codeTable [(("a").data)],
        Elem.codeBorder, Elem.spacerE 12]) := by
  decide

/-- C2 (amended): while the parser is in the code-block state, every line
    whose trimmed form does not start with the fence marker is appended
    verbatim to the buffer; any line whose trimmed form starts with the
    fence marker — with or without trailing text — closes the block,
    emitting one CodeBlock built from the buffer and returning to the
    initial state. -/
theorem in_code_fence_closes (st : ParseState) (line : List Char)
    (h : st.in_code_block = true) :
    (¬ (trim line).take 3 = fence3 →
       processLine st line = ({ st with code_lines := st.code_lines ++ [line] }, [])) ∧
    ((trim line).take 3 = fence3 →
       processLine st line =
         ({ st with in_code_block := false, code_lines := [] },
          create_code_block st.code_lines st.code_language)) :=
  ⟨fun hf => processLine_append h hf, fun hf => processLine_fence_close h hf⟩

/-- Witness for C2's amended theorem at a concrete state and lines. -/
theorem in_code_fence_closes_witness :
    processLine ⟨true, [("x").data], [], false⟩ (("y").data) =
      (⟨true, [("x").data, ("y").data], [], false⟩, []) ∧
    processLine ⟨true, [("x").data], [], false⟩ (("\x60\x60\x60 tail").data) =
      (⟨false, [], [], false⟩, create_code_block [("x").data] []) :=
  ⟨(in_code_fence_closes ⟨true, [("x").data], [], false⟩ (("y").data) rfl).1 (by decide),
   (in_code_fence_closes ⟨true, [("x").data], [], false⟩ (("\x60\x60\x60 tail").data) rfl).2
     (by decide)⟩

/-- C3: the references latch is monotonic.  First conjunct: a line
    recognized (outside a code block) as a references/bibliography heading
    sets the latch.  Second conjunct: once the latch is true it stays true
    for the remainder of the parse, whatever the remaining lines are.
    Third conjunct: with the latch true, a line outside a code block that
    matches the numbered-list pattern is emitted with the reference style
    (a ReferenceItem), not the numbered style. -/
theorem references_latch_monotonic :
    (∀ (st : ParseState) (line : List Char), st.in_code_block = false →
       isRefHeading (trim line) = true → (processLine st line).1.in_references = true) ∧
    (∀ (st : ParseState) (lines : List (List Char)), st.in_references = true →
       (parseLinesFrom st lines).1.in_references = true) ∧
    (∀ (st : ParseState) (line : List Char), st.in_code_block = false →
       st.in_references = true → isNumbered (trim line) = true →
       (processLine st line).2 =
         [Elem.para StyleName.referenceS (process_inline_markdown (trim line))]) := by
  refine ⟨?_, ?_, ?_⟩
  · intro st line hc hr
    rw [processLine_refHeading hc hr]
  · intro st lines h
    exact parseLinesFrom_refs_mono lines st h
  · intro st line hc hin hn
    rw [processLine_numbered hc hn, hin]
    simp

/-- Witness for C3 at concrete states and lines. -/
theorem references_latch_monotonic_witness :
    (processLine ⟨false, [], [], false⟩ (("## References").data)).1.in_references = true ∧
    (parseLinesFrom ⟨false, [], [], true⟩ [("some text").data, ("### Sub").data]).1.in_references
      = true ∧
    (processLine ⟨false, [], [], true⟩ (("1. Smith, J. (2020).").data)).2 =
      [Elem.para StyleName.referenceS
         (process_inline_markdown (trim (("1. Smith, J. (2020).").data)))] :=
  ⟨references_latch_monotonic.1 ⟨false, [], [], false⟩ (("## References").data) rfl (by decide),
   references_latch_monotonic.2.1 ⟨false, [], [], true⟩ [("some text").data, ("### Sub").data]
     rfl,
   references_latch_monotonic.2.2 ⟨false, [], [], true⟩ (("1. Smith, J. (2020).").data) rfl rfl
     (by decide)⟩

/-- C4 counterexample: the claim states that a references heading wrapped
    in markup, such as `## **References**`, latches the flag and emits the
    canonical heading.  On the two lines `## **References**` and
    `1. Webb, A.`, the regex `^#+\\s*(references?|bibliography)$` does not
    match the first line (the asterisks are in the way), so the flag stays
    false and the numbered line is emitted with the numbered style, not
    the reference style.  (The heading text happens to render as
    `References` only because the generic heading branch strips markup.) -/
theorem markup_wrapped_ref_heading_cex :
    parseLinesFrom ⟨false, [], [], false⟩ [("## **References**").data, ("1. Webb, A.").data] =
      (⟨false, [], [], false⟩,
       [Elem.para StyleName.heading1S (("References").data),
        Elem.para StyleName.numberedS (process_inline_markdown (("1. Webb, A.").data))]) := by
  decide

/-- C4 (amended): the latch is set exactly by a heading line (outside a
    code block) whose stripped text is hashes, optional whitespace, and
    the bare word references/reference/bibliography case-insensitively —
    with no surrounding markup characters; such a line emits the canonical
    `References` heading.  A markup-wrapped heading like `## **References**`
    does not latch (it renders through the ordinary heading branch). -/
theorem references_heading_exact_match (st : ParseState) (line : List Char)
    (hc : st.in_code_block = false) :
    (processLine st line).1.in_references = (st.in_references || isRefHeading (trim line)) ∧
    (isRefHeading (trim line) = true →
       processLine st line =
         ({ st with in_references := true },
          [Elem.para StyleName.heading1S (("References").data)])) := by
  constructor
  · by_cases hr : isRefHeading (trim line) = true
    · rw [processLine_refHeading hc hr, hr]
      simp
    · rw [Bool.not_eq_true] at hr
      rw [processLine_refs_unchanged hc hr, hr]
      simp
  · intro hr
    exact processLine_refHeading hc hr

/-- Witness for C4's amended theorem: `### REFERENCES` latches and emits
    the canonical heading; a plain paragraph leaves the latch alone. -/
theorem references_heading_exact_match_witness :
    (processLine ⟨false, [], [], false⟩ (("### REFERENCES").data)).1.in_references = true ∧
    processLine ⟨false, [], [], false⟩ (("### REFERENCES").data) =
      (⟨false, [], [], true⟩, [Elem.para StyleName.heading1S (("References").data)]) :=
  ⟨((references_heading_exact_match ⟨false, [], [], false⟩ (("### REFERENCES").data) rfl).1).trans
     (by decide),
   (references_heading_exact_match ⟨false, [], [], false⟩ (("### REFERENCES").data) rfl).2
     (by decide)⟩

/-- C5: the includeReferences flag is advisory only.  First conjunct: the
    story produced by `create_pdf` is identical whatever value the flag
    takes, all other inputs equal (the function never consults it).
    Second conjunct: with the flag set to false, content containing a
    references heading still gets the canonical References heading and a
    reference-styled item — formatting is driven by the content alone. -/
theorem include_refs_flag_advisory :
    (∀ (info : String → Option String) (content : List (List Char))
       (logo : Option (List Nat)) (d : String) (r1 r2 : Bool),
       create_pdf info content r1 logo d = create_pdf info content r2 logo d) ∧
    (∀ (info : String → Option String) (logo : Option (List Nat)) (d : String),
       create_pdf info [("## References").data, ("1. Garcia, M. (2019).").data] false logo d =
         create_cover_page info d ++
           [Elem.para StyleName.heading1S (("References").data),
            Elem.para StyleName.referenceS
              (process_inline_markdown (("1. Garcia, M. (2019).").data))]) := by
  constructor
  · intro info content logo d r1 r2
    rfl
  · intro info logo d
    have hp : parse_content_to_pdf [("## References").data, ("1. Garcia, M. (2019).").data] =
        [Elem.para StyleName.heading1S (("References").data),
         Elem.para StyleName.referenceS
           (process_inline_markdown (("1. Garcia, M. (2019).").data))] := by
      decide
    show create_cover_page info d ++ parse_content_to_pdf _ = _
    rw [hp]

/-- C6: every line reaching the classifier (outside a code block) gets
    exactly one category, decided by the fixed first-match order of
    `classifyLine` — code fence, blank, heading, bullet, numbered,
    paragraph.  The first conjunct: the paragraph category is exactly the
    fall-through case where every pattern fails.  The remaining conjuncts:
    the parser's emission agrees with the classification, so no line is
    dropped and no line is handled by two branches.  (The parser is a
    total function by construction: it never raises.) -/
theorem parser_total_first_match (st : ParseState) (line : List Char)
    (hc : st.in_code_block = false) :
    (classifyLine (trim line) = LineCat.paragraphC ↔
       (¬ (trim line).take 3 = fence3 ∧ ¬ trim line = [] ∧
        isRefHeading (trim line) = false ∧ headingMatch (trim line) = none ∧
        isBullet (trim line) = false ∧ isNumbered (trim line) = false)) ∧
    (classifyLine (trim line) = LineCat.paragraphC →
       processLine st line =
         (st, [Elem.para StyleName.bodyS (process_inline_markdown (trim line))])) ∧
    (classifyLine (trim line) = LineCat.fenceC →
       (processLine st line).1.in_code_block = true ∧ (processLine st line).2 = []) ∧
    (classifyLine (trim line) = LineCat.blankC →
       processLine st line = (st, [Elem.spacerE 8])) ∧
    (classifyLine (trim line) = LineCat.bulletC →
       processLine st line =
         (st, [Elem.para StyleName.bulletS
                 (process_inline_markdown (bulletReplace (trim line)))])) ∧
    (classifyLine (trim line) = LineCat.numberedC →
       processLine st line =
         (st, [Elem.para (if st.in_references then StyleName.referenceS
                          else StyleName.numberedS)
                 (process_inline_markdown (trim line))])) := by
  by_cases h1 : (trim line).take 3 = fence3
  · have hcl : classifyLine (trim line) = LineCat.fenceC := by simp [classifyLine, h1]
    refine ⟨?_, ?_, ?_, ?_, ?_, ?_⟩
    · rw [hcl]; simp [h1]
    · rw [hcl]; intro hco; exact LineCat.noConfusion hco
    · intro _; rw [processLine_fence_open hc h1]; exact ⟨rfl, rfl⟩
    · rw [hcl]; intro hco; exact LineCat.noConfusion hco
    · rw [hcl]; intro hco; exact LineCat.noConfusion hco
    · rw [hcl]; intro hco; exact LineCat.noConfusion hco
  · by_cases h2 : trim line = []
    · have hcl : classifyLine (trim line) = LineCat.blankC := by
        simp [classifyLine, h1, h2, fence3]
      refine ⟨?_, ?_, ?_, ?_, ?_, ?_⟩
      · rw [hcl]; simp [h2, fence3]
      · rw [hcl]; intro hco; exact LineCat.noConfusion hco
      · rw [hcl]; intro hco; exact LineCat.noConfusion hco
      · intro _; exact processLine_blank hc h2
      · rw [hcl]; intro hco; exact LineCat.noConfusion hco
      · rw [hcl]; intro hco; exact LineCat.noConfusion hco
    · by_cases h3 : isRefHeading (trim line) = true ∨ (headingMatch (trim line)).isSome
      · have hcl : classifyLine (trim line) = LineCat.headingC := by
          simp [classifyLine, h1, h2, h3]
        refine ⟨?_, ?_, ?_, ?_, ?_, ?_⟩
        · constructor
          · intro hcp; rw [hcl] at hcp; exact LineCat.noConfusion hcp
          · rintro ⟨-, -, hr, hm, -, -⟩
            exfalso
            rcases h3 with h3 | h3
            · rw [hr] at h3; exact Bool.noConfusion h3
            · rw [hm] at h3; exact Bool.noConfusion h3
        · rw [hcl]; intro hco; exact LineCat.noConfusion hco
        · rw [hcl]; intro hco; exact LineCat.noConfusion hco
        · rw [hcl]; intro hco; exact LineCat.noConfusion hco
        · rw [hcl]; intro hco; exact LineCat.noConfusion hco
        · rw [hcl]; intro hco; exact LineCat.noConfusion hco
      · have hr : isRefHeading (trim line) = false := by
          cases hb : isRefHeading (trim line)
          · rfl
          · exact absurd (Or.inl hb) h3
        have hm : headingMatch (trim line) = none := by
          rcases hmo : headingMatch (trim line) with _ | p
          · rfl
          · exact absurd (Or.inr (by rw [hmo]; rfl)) h3
        by_cases h4 : isBullet (trim line) = true
        · have hcl : classifyLine (trim line) = LineCat.bulletC := by
            simp [classifyLine, h1, h2, h3, h4]
          refine ⟨?_, ?_, ?_, ?_, ?_, ?_⟩
          · rw [hcl]; simp [h4]
          · rw [hcl]; intro hco; exact LineCat.noConfusion hco
          · rw [hcl]; intro hco; exact LineCat.noConfusion hco
          · rw [hcl]; intro hco; exact LineCat.noConfusion hco
          · intro _; exact processLine_bullet hc h4
          · rw [hcl]; intro hco; exact LineCat.noConfusion hco
        · rw [Bool.not_eq_true] at h4
          by_cases h5 : isNumbered (trim line) = true
          · have hcl : classifyLine (trim line) = LineCat.numberedC := by
              simp [classifyLine, h1, h2, h3, h4, h5]
            refine ⟨?_, ?_, ?_, ?_, ?_, ?_⟩
            · rw [hcl]; simp [h5]
            · rw [hcl]; intro hco; exact LineCat.noConfusion hco
            · rw [hcl]; intro hco; exact LineCat.noConfusion hco
            · rw [hcl]; intro hco; exact LineCat.noConfusion hco
            · rw [hcl]; intro hco; exact LineCat.noConfusion hco
            · intro _; exact processLine_numbered hc h5
          · rw [Bool.not_eq_true] at h5
            have hcl : classifyLine (trim line) = LineCat.paragraphC := by
              simp [classifyLine, h1, h2, h3, h4, h5]
            refine ⟨?_, ?_, ?_, ?_, ?_, ?_⟩
            · rw [hcl]; simp [h1, h2, hr, hm, h4, h5]
            · intro _; exact processLine_paragraph hc h1 h2 hr hm h4 h5
            · rw [hcl]; intro hco; exact LineCat.noConfusion hco
            · rw [hcl]; intro hco; exact LineCat.noConfusion hco
            · rw [hcl]; intro hco; exact LineCat.noConfusion hco
            · rw [hcl]; intro hco; exact LineCat.noConfusion hco

/-- Witness for C6 at a concrete state and line: a plain prose line falls
    through every pattern and is emitted as a body paragraph. -/
theorem parser_total_first_match_witness :
    processLine ⟨false, [], [], false⟩ (("Just plain prose.").data) =
      (⟨false, [], [], false⟩,
       [Elem.para StyleName.bodyS (process_inline_markdown (("Just plain prose.").data))]) :=
  (parser_total_first_match ⟨false, [], [], false⟩ (("Just plain prose.").data) rfl).2.1
    (by decide)

/-! ### Escaping lemmas -/

theorem replaceChar_append (c : Char) (r : List Char) (xs ys : List Char) :
    replaceChar c r (xs ++ ys) = replaceChar c r xs ++ replaceChar c r ys := by
  induction xs with
  | nil => rfl
  | cons a as ih =>
    by_cases h : a = c
    · simp [replaceChar, h, ih, List.append_assoc]
    · simp [replaceChar, h, ih]

theorem escapeLine_cons (x : Char) (xs : List Char) :
    escapeLine (x :: xs) = escChar x ++ escapeLine xs := by
  by_cases h1 : x = '&'
  · subst h1
    show replaceChar '>' escGt (replaceChar '<' escLt (replaceChar '&' escAmp ('&' :: xs))) = _
    have e1 : replaceChar '&' escAmp ('&' :: xs) = escAmp ++ replaceChar '&' escAmp xs := by
      simp [replaceChar]
    rw [e1, replaceChar_append, replaceChar_append]
    rfl
  · by_cases h2 : x = '<'
    · subst h2
      show replaceChar '>' escGt (replaceChar '<' escLt (replaceChar '&' escAmp ('<' :: xs))) = _
      have e1 : replaceChar '&' escAmp ('<' :: xs) = '<' :: replaceChar '&' escAmp xs := by
        simp [replaceChar]
      have e2 : replaceChar '<' escLt ('<' :: replaceChar '&' escAmp xs) =
          escLt ++ replaceChar '<' escLt (replaceChar '&' escAmp xs) := by
        simp [replaceChar]
      rw [e1, e2, replaceChar_append]
      rfl
    · by_cases h3 : x = '>'
      · subst h3
        show replaceChar '>' escGt (replaceChar '<' escLt (replaceChar '&' escAmp ('>' :: xs))) = _
        have e1 : replaceChar '&' escAmp ('>' :: xs) = '>' :: replaceChar '&' escAmp xs := by
          simp [replaceChar]
        have e2 : replaceChar '<' escLt ('>' :: replaceChar '&' escAmp xs) =
            '>' :: replaceChar '<' escLt (replaceChar '&' escAmp xs) := by
          simp [replaceChar]
        have e3 : replaceChar '>' escGt ('>' :: replaceChar '<' escLt (replaceChar '&' escAmp xs)) =
            escGt ++ replaceChar '>' escGt (replaceChar '<' escLt (replaceChar '&' escAmp xs)) := by
          simp [replaceChar]
        rw [e1, e2, e3]
        rfl
      · have e1 : replaceChar '&' escAmp (x :: xs) = x :: replaceChar '&' escAmp xs := by
          simp [replaceChar, h1]
        have e2 : replaceChar '<' escLt (x :: replaceChar '&' escAmp xs) =
            x :: replaceChar '<' escLt (replaceChar '&' escAmp xs) := by
          simp [replaceChar, h2]
        have e3 : replaceChar '>' escGt (x :: replaceChar '<' escLt (replaceChar '&' escAmp xs)) =
            x :: replaceChar '>' escGt (replaceChar '<' escLt (replaceChar '&' escAmp xs)) := by
          simp [replaceChar, h3]
        show replaceChar '>' escGt (replaceChar '<' escLt (replaceChar '&' escAmp (x :: xs))) = _
        rw [e1, e2, e3]
        simp [escChar, h1, h2, h3, escapeLine]

theorem decodeAux_escape (l : List Char) :
    ∀ fuel : Nat, (escapeLine l).length ≤ fuel →
      decodeEntitiesAux fuel (escapeLine l) = l := by
  induction l with
  | nil =>
    intro fuel h
    cases fuel with
    | zero => rfl
    | succ f => rfl
  | cons x xs ih =>
    intro fuel h
    rw [escapeLine_cons] at h ⊢
    by_cases h1 : x = '&'
    · subst h1
      rw [show escChar '&' = escAmp from rfl] at h ⊢
      cases fuel with
      | zero =>
        exfalso
        have h5 : 5 + (escapeLine xs).length ≤ 0 := by
          simpa [escAmp, List.length_append] using h
        omega
      | succ f =>
        have step : decodeEntitiesAux (f + 1) (escAmp ++ escapeLine xs) =
            '&' :: decodeEntitiesAux f (escapeLine xs) := rfl
        rw [step]
        have hf : (escapeLine xs).length ≤ f := by
          simp [escAmp, List.length_append] at h
          omega
        rw [ih f hf]
    · by_cases h2 : x = '<'
      · subst h2
        rw [show escChar '<' = escLt from rfl] at h ⊢
        cases fuel with
        | zero =>
          exfalso
          have h4 : 4 + (escapeLine xs).length ≤ 0 := by
            simpa [escLt, List.length_append] using h
          omega
        | succ f =>
          have step : decodeEntitiesAux (f + 1) (escLt ++ escapeLine xs) =
              '<' :: decodeEntitiesAux f (escapeLine xs) := rfl
          rw [step]
          have hf : (escapeLine xs).length ≤ f := by
            simp [escLt, List.length_append] at h
            omega
          rw [ih f hf]
      · by_cases h3 : x = '>'
        · subst h3
          rw [show escChar '>' = escGt from rfl] at h ⊢
          cases fuel with
          | zero =>
            exfalso
            have h4 : 4 + (escapeLine xs).length ≤ 0 := by
              simpa [escGt, List.length_append] using h
            omega
          | succ f =>
            have step : decodeEntitiesAux (f + 1) (escGt ++ escapeLine xs) =
                '>' :: decodeEntitiesAux f (escapeLine xs) := rfl
            rw [step]
            have hf : (escapeLine xs).length ≤ f := by
              simp [escGt, List.length_append] at h
              omega
            rw [ih f hf]
        · have hesc : escChar x = [x] := by simp [escChar, h1, h2, h3]
          rw [hesc] at h ⊢
          cases fuel with
          | zero =>
            exfalso
            have hx : 1 + (escapeLine xs).length ≤ 0 := by
              simpa [List.length_append] using h
            omega
          | succ f =>
            have hf : (escapeLine xs).length ≤ f := by
              simp [List.length_append] at h
              omega
            show decodeEntitiesAux (f + 1) (x :: escapeLine xs) = x :: xs
            simp only [decodeEntitiesAux]
            rw [if_neg h1, ih f hf]

theorem decode_escape (l : List Char) : decodeEntities (escapeLine l) = l :=
  decodeAux_escape l (escapeLine l).length (le_refl _)

/-- C7: the Code Block Renderer escapes every literal ampersand and angle
    bracket before styling, ampersand first.  First conjunct: decoding the
    escaped line recovers the original exactly, for every line — so every
    escaped character renders as visible literal text and is never
    interpreted as markup.  Second conjunct: the concrete round-trip of
    the claim — the code line `<script>&amp;</script>` is stored in the
    rendered code row as `&lt;script&gt;&amp;amp;&lt;/script&gt;`.  Third
    conjunct: the ampersand is replaced first, so an already-escaped
    sequence such as `&lt;` becomes `&amp;lt;` (shown literally rather
    than re-interpreted). -/
theorem code_block_escaping_roundtrip :
    (∀ l : List Char, decodeEntities (escapeLine l) = l) ∧
    create_code_block [(("<script>&amp;</script>").data)] [] =
      [Elem.codeHeader ((" CODE").data),
       Elem.codeTable [(("&lt;script&gt;&amp;amp;&lt;/script&gt;").data)],
       Elem.codeBorder, Elem.spacerE 12] ∧
    escapeLine (("&lt;").data) = (("&amp;lt;").data) :=
  ⟨decode_escape, by decide, by decide⟩

/-- C8 counterexample: the claim states that every heading line with one
    to four hashes, whitespace and text is emitted as a Heading whose text
    is the raw text with markup characters stripped.  The heading line
    `# bibliography` is such a line, yet the parser emits the canonical
    text `References` (and latches the references flag) — not the
    markup-stripped text `bibliography`. -/
theorem bibliography_heading_cex :
    parseLinesFrom ⟨false, [], [], false⟩ [("# bibliography").data] =
      (⟨false, [], [], true⟩, [Elem.para StyleName.heading1S (("References").data)]) ∧
    ¬ stripMarkup (("bibliography").data) = (("References").data) :=
  ⟨by decide, by decide⟩

/-- C8 (amended): for every heading line that is not itself a
    references/bibliography heading, the parser emits a heading with the
    markup characters stripped from the text and the level in the 1–4
    range; levels 1 and 2 both get the top-level heading style, and levels
    3 and 4 get two further, pairwise distinct styles.
    (References/bibliography headings instead emit the canonical
    `References` text, as the counterexample shows.) -/
theorem heading_emission_styles (st : ParseState) (line : List Char) (level : Nat)
    (text : List Char) (hc : st.in_code_block = false)
    (hr : isRefHeading (trim line) = false)
    (hm : headingMatch (trim line) = some (level, text)) :
    processLine st line =
      (st,
       [Elem.para
          (if level = 1 then StyleName.heading1S
           else if level = 2 then StyleName.heading1S
           else if level = 3 then StyleName.heading2S
           else StyleName.heading3S)
          (stripMarkup text)]) ∧
    1 ≤ level ∧ level ≤ 4 ∧
    ¬ StyleName.heading1S = StyleName.heading2S ∧
    ¬ StyleName.heading1S = StyleName.heading3S ∧
    ¬ StyleName.heading2S = StyleName.heading3S := by
  obtain ⟨-, hl1, hl4⟩ := headingMatch_head hm
  exact ⟨processLine_heading hc hr hm, hl1, hl4, by decide, by decide, by decide⟩

/-- Witness for C8's amended theorem: `## **Core** Ideas` is a level-2
    heading, emitted with the top-level style and the asterisks stripped. -/
theorem heading_emission_styles_witness :
    processLine ⟨false, [], [], false⟩ (("## **Core** Ideas").data) =
      (⟨false, [], [], false⟩,
       [Elem.para StyleName.heading1S (("Core Ideas").data)]) :=
  ((heading_emission_styles ⟨false, [], [], false⟩ (("## **Core** Ideas").data) 2
      (("**Core** Ideas").data) rfl (by decide) (by decide)).1).trans (by decide)

/-- C9 counterexample: the claim states that a missing subject renders
    placeholder text, as a missing institution does.  With every metadata
    field absent, the cover page renders the institution placeholder
    `UNIVERSITY` (element 1) but renders the subject line as the empty
    string (element 4) — no placeholder. -/
theorem missing_subject_empty_cex :
    (create_cover_page (fun _ => none) ("June 01, 2025"))[4]? =
      some (Elem.para StyleName.subtitleS []) ∧
    (create_cover_page (fun _ => none) ("June 01, 2025"))[1]? =
      some (Elem.para StyleName.titleS (("UNIVERSITY").data)) :=
  ⟨by decide, by decide⟩

/-- C9 (amended): for every metadata record with the subject absent, the
    cover renders, in order: the upper-cased institution (placeholder
    `UNIVERSITY` when absent), the fixed `ACADEMIC ASSIGNMENT` subtitle,
    an empty subject line (the subject defaults to the empty string, not
    to placeholder text), the six-row label/value table, a decorative
    rule, and an explicit page break last. -/
theorem cover_page_subject_default (info : String → Option String) (d : String)
    (h : info ("subject") = none) :
    create_cover_page info d =
      [Elem.spacerE 40,
       Elem.para StyleName.titleS (upperL ((dget info ("university") ("UNIVERSITY")).data)),
       Elem.spacerE 10,
       Elem.para StyleName.subtitleS (("ACADEMIC ASSIGNMENT").data),
       Elem.para StyleName.subtitleS [],
       Elem.spacerE 15,
       Elem.coverTable
         [((("Student Name:").data), ((dget info ("name") ("")).data)),
          ((("Student ID:").data), ((dget info ("id") ("")).data)),
          ((("Program:").data), ((dget info ("program") ("")).data)),
          ((("Instructor:").data), ((dget info ("instructor") ("N/A")).data)),
          ((("Semester / Term:").data), ((dget info ("semester") ("N/A")).data)),
          ((("Submission Date:").data), d.data)],
       Elem.spacerE 30,
       Elem.para StyleName.referenceS (List.replicate 80 '_'),
       Elem.spacerE 20,
       Elem.pageBreak] := by
  simp [create_cover_page, dget, h]

/-- Witness for C9's amended theorem at the all-absent record. -/
theorem cover_page_subject_default_witness :
    create_cover_page (fun _ => none) ("June 01, 2025") =
      [Elem.spacerE 40,
       Elem.para StyleName.titleS (("UNIVERSITY").data),
       Elem.spacerE 10,
       Elem.para StyleName.subtitleS (("ACADEMIC ASSIGNMENT").data),
       Elem.para StyleName.subtitleS [],
       Elem.spacerE 15,
       Elem.coverTable
         [((("Student Name:").data), []),
          ((("Student ID:").data), []),
          ((("Program:").data), []),
          ((("Instructor:").data), (("N/A").data)),
          ((("Semester / Term:").data), (("N/A").data)),
          ((("Submission Date:").data), (("June 01, 2025").data))],
       Elem.spacerE 30,
       Elem.para StyleName.referenceS (List.replicate 80 '_'),
       Elem.spacerE 20,
       Elem.pageBreak] :=
  (cover_page_subject_default (fun _ => none) ("June 01, 2025") rfl).trans (by decide)

/-- C10: the placeholder scheme of the Inline Span Formatter is not
    collision-safe.  On the line whose characters are a backtick code
    span `x` followed by the literal text `___CODE_0___`, the restore
    step's `str.replace` rewrites both the generated placeholder and the
    user-written literal: the styled code span for `x` appears twice in
    the output, and the literal token `___CODE_0___` — present in the
    input — does not survive to the output. -/
theorem placeholder_collision :
    process_inline_markdown (("\x60x\x60 ___CODE_0___").data) =
      styledSpan (("x").data) ++ (' ' :: styledSpan (("x").data)) ∧
    containsSub (("___CODE_0___").data)
        (process_inline_markdown (("\x60x\x60 ___CODE_0___").data)) = false ∧
    containsSub (("___CODE_0___").data) (("\x60x\x60 ___CODE_0___").data) = true :=
  ⟨by decide, by decide, by decide⟩

end PdfGen
